import Mathlib

/-!
Shallow embedding of `fa_calculator.py` (INDIA_ITR_FA_CALCULATOR_STOCKS).

Modelling conventions, used consistently below:

* Calendar dates are ISO strings `"YYYY-MM-DD"` in the source, compared
  lexicographically (Python compares `str`/`datetime` values; for valid
  zero-padded ISO dates both orders coincide).  We encode a date as the
  `Nat` numeral `YYYYMMDD`; numeric order on these numerals is exactly the
  lexicographic order on the corresponding strings, `date[:4]`/
  `startswith(str(year))` becomes `d / 10000 = year`, `f"{year}-01-01"`
  becomes `year * 10000 + 101`, and `f"{year}-12-31"` becomes
  `year * 10000 + 1231`.
* Python `float` money amounts are modelled as `Rat`; `int(round(x))` and
  `round(x, 2)` are modelled as exact decimal round-half-to-even
  (`pyRound` / `round2`), Python's rounding rule on exact values.
* Python dicts preserve insertion order; they are modelled as association
  lists, with `dictSet` giving the dict-update semantics (update in
  place, append new keys at the end).
* `sys.exit(1)` / `return None` / `return False` failure exits are
  modelled with `Option`; `None` results of resolver calls are `Option`
  values supplied by oracle functions standing for the cache/provider
  layer.
-/

namespace FACalc

/-- A calendar date encoded as the numeral `YYYYMMDD` (see header note). -/
abbrev Date := Nat

/-- `f"{year}-01-01"` as a `Date` numeral. -/
def jan1 (year : Nat) : Date := year * 10000 + 101

/-- `f"{year}-12-31"` as a `Date` numeral. -/
def dec31 (year : Nat) : Date := year * 10000 + 1231

/-- `sell_date.startswith(str(year))`: the year field of an ISO date. -/
def dateYear (d : Date) : Nat := d / 10000

/-- Python `round` to an integer: round half to even (on exact values). -/
def pyRound (q : Rat) : Int :=
  let fl : Int := ⌊q⌋
  let frac : Rat := q - (fl : Rat)
  if frac < 1/2 then fl
  else if 1/2 < frac then fl + 1
  else if fl % 2 = 0 then fl else fl + 1

/-- Python `round(x, 2)`: round half to even at two decimal places. -/
def round2 (q : Rat) : Rat := (pyRound (q * 100) : Rat) / 100

/-!
## Input records (`vest.json` / `sell.json` schemas)

One vest record of `vest.json` (fields read by the source:
`vest_date`, `number_of_shares`, `vest_price_optional`).
-/

structure VestEntry where
  vest_date : Date
  number_of_shares : Int
  vest_price_optional : Option Rat
deriving DecidableEq, Repr

/-- One sale record of `sell.json` (fields read by the source:
`purchase_date`, `sell_date`, `number_of_shares_sold`, `sell_price_inr`). -/
structure Sale where
  purchase_date : Date
  sell_date : Date
  number_of_shares_sold : Int
  sell_price_inr : Rat
deriving DecidableEq, Repr

/-- `vest.json`: symbol → list of vests. -/
abbrev VestData := List (String × List VestEntry)

/-- `sell.json`: symbol → list of sales. -/
abbrev SellData := List (String × List Sale)

/-- `sell_data.get(symbol, {}).get("sales", [])`. -/
def lookupSales (sd : SellData) (symbol : String) : List Sale :=
  ((sd.find? (fun e => e.1 == symbol)).map (·.2)).getD []

/-- `vest_data[symbol].get("vests", [])` (empty when the symbol is absent). -/
def lookupVests (vd : VestData) (symbol : String) : List VestEntry :=
  ((vd.find? (fun e => e.1 == symbol)).map (·.2)).getD []

/-!
## `validate_sales_and_get_remaining_shares` (fa_calculator.py:571-589)

Sums `number_of_shares_sold` over the symbol's sales whose
`purchase_date` equals the lot's vest date; `sys.exit(1)` when the total
exceeds the lot's original shares (modelled as `none`), otherwise returns
the remaining shares.
-/

/-- `total_sold` accumulation loop of
`validate_sales_and_get_remaining_shares`. -/
def totalSoldFor (symbolSales : List Sale) (vest_date : Date) : Int :=
  symbolSales.foldl
    (fun acc sale =>
      if sale.purchase_date = vest_date then acc + sale.number_of_shares_sold
      else acc) 0

/-- `validate_sales_and_get_remaining_shares`: `none` models the
`sys.exit(1)` abort on over-sell. -/
def validateSalesAndGetRemainingShares (symbolSales : List Sale)
    (vest_date : Date) (original_shares : Int) : Option Int :=
  let total_sold := totalSoldFor symbolSales vest_date
  if original_shares < total_sold then none
  else some (original_shares - total_sold)

lemma totalSoldFor_acc (symbolSales : List Sale) (vest_date : Date) (a : Int) :
    symbolSales.foldl
      (fun acc sale =>
        if sale.purchase_date = vest_date then acc + sale.number_of_shares_sold
        else acc) a = a + totalSoldFor symbolSales vest_date := by
  induction symbolSales generalizing a with
  | nil => simp [totalSoldFor]
  | cons s rest ih =>
      simp only [totalSoldFor, List.foldl_cons]
      by_cases h : s.purchase_date = vest_date
      · rw [if_pos h, if_pos h, ih, ih (0 + s.number_of_shares_sold)]
        ring
      · rw [if_neg h, if_neg h, ih, ih 0]
        ring

/-!
## `calculate_peak_value_with_sales` (fa_calculator.py:622-703)

Parameterised by `rate` (the `get_sbi_rate` resolver) and by `prices`
(the cached `public_data["stocks"][symbol]["prices"]` items for the lot's
symbol, in dict iteration order).
-/

/-- The `lot_sales` collection loop: sales of this lot
(`purchase_date == vest_date`) restricted to the target year
(`sell_date.startswith(str(self.year))`), keeping `(sell_date, shares)`. -/
def lotSalesInYear (sells : List Sale) (vest_date : Date) (year : Nat) :
    List (Date × Int) :=
  (sells.filter
      (fun s => s.purchase_date = vest_date ∧ dateYear s.sell_date = year)).map
    (fun s => (s.sell_date, s.number_of_shares_sold))

/-- `shares_held` on day `d`: start from the original shares, subtract
each collected sale with `sell_date ≤ d`, then clamp at 0
(`shares_held = max(0, shares_held)`). -/
def sharesHeldOn (original_shares : Int) (lot_sales : List (Date × Int))
    (d : Date) : Int :=
  max 0 (lot_sales.foldl
    (fun acc s => if s.1 ≤ d then acc - s.2 else acc) original_shares)

/-- The scan for the date with maximum `price * shares_held` in USD
(`max_usd_value` starts at `0.0`, `best_date` at `None`, strict `>`
update). -/
def peakScan (original_shares : Int) (lot_sales : List (Date × Int)) :
    List (Date × Rat) → Rat × Option Date → Rat × Option Date
  | [], acc => acc
  | (d, price) :: rest, (maxUsd, best) =>
      let held := sharesHeldOn original_shares lot_sales d
      if 0 < held then
        let usd := price * (held : Rat)
        if maxUsd < usd then peakScan original_shares lot_sales rest (usd, some d)
        else peakScan original_shares lot_sales rest (maxUsd, best)
      else peakScan original_shares lot_sales rest (maxUsd, best)

/-- `calculate_peak_value_with_sales`.  `none` models the `return None`
error paths (no cached prices in the window, no valid peak date, missing
exchange rate).  The `peak_price`, `peak_date` and `exchange_rate`
arguments of the source function are unused by its body and omitted;
the sort of `lot_sales` by date is omitted because every later use
(summation in `sharesHeldOn`) is order-independent. -/
def calculatePeakValueWithSales (year : Nat) (rate : Date → Option Rat)
    (prices : List (Date × Rat)) (sells : List Sale) (vest_date : Date)
    (original_shares : Int) : Option Rat :=
  let lot_sales := lotSalesInYear sells vest_date year
  let year_start := max vest_date (jan1 year)
  let year_end := dec31 year
  let year_prices := prices.filter (fun p => year_start ≤ p.1 ∧ p.1 ≤ year_end)
  if year_prices.isEmpty then none
  else
    match peakScan original_shares lot_sales year_prices (0, none) with
    | (_, none) => none
    | (maxUsd, some best_date) =>
        match rate best_date with
        | none => none
        | some r => some (maxUsd * r)

/-!
## Per-lot processing (`process_fa_calculations`, fa_calculator.py:1490-1634)

The resolver layer (cache + network) is abstracted as oracle functions:
`price` is `get_stock_price` after the prefetch phase, `rate` is
`get_sbi_rate`, `peak` is `get_peak_price_from_vest` (`none` models its
`(None, None)` failure), `pricesFor` is the cached daily price map that
`calculate_peak_value_with_sales` reads, and `company` is
`get_company_info` (which never fails).
-/

structure CompanyInfo where
  country : String
  name : String
  address : String
  zip_code : String
  nature : String
deriving DecidableEq, Repr

structure Oracles where
  price : String → Date → Option Rat
  rate : Date → Option Rat
  peak : String → Date → Option (Rat × Date)
  pricesFor : String → List (Date × Rat)
  company : String → CompanyInfo

/-- `get_purchase_price_with_vest_override` (fa_calculator.py:242-253):
the manually supplied `vest_price_optional` when present, otherwise the
market close from `get_stock_price`. -/
def getPurchasePriceWithVestOverride (o : Oracles) (symbol : String)
    (vest : VestEntry) : Option Rat :=
  match vest.vest_price_optional with
  | some p => some p
  | none => o.price symbol vest.vest_date

/-- One output row (the `csv_row` built at fa_calculator.py:1601-1615;
numeric cells already passed through `int(round(...))`). -/
structure Row where
  symbol : String
  vest_date : Date
  company : CompanyInfo
  acq_date : Date
  initial : Int
  peak : Int
  closing : Int
  paid : Int
  proceeds : Int
deriving DecidableEq, Repr

/-- Outcome of the per-lot body of the `process_fa_calculations` loop. -/
inductive LotOutcome where
  /-- `sys.exit(1)` inside `validate_sales_and_get_remaining_shares`. -/
  | oversellAbort
  /-- `remaining_shares == 0`: `continue` (lot skipped). -/
  | skipFullySold
  /-- `None in [...]`: `return False` (whole run fails); carries the
  per-missing-field diagnostic lines printed by the source. -/
  | missingData (missing : List String)
  /-- `peak_value is None`: `continue` (lot skipped, run goes on). -/
  | skipNoPeak
  /-- A computed row appended to `csv_rows`. -/
  | ok (row : Row)
deriving DecidableEq, Repr

/-- `get_sale_proceeds_for_lot_in_year` (fa_calculator.py:608-620). -/
def getSaleProceedsForLotInYear (symbolSales : List Sale) (vest_date : Date)
    (target_year : Nat) : Rat :=
  symbolSales.foldl
    (fun acc sale =>
      if sale.purchase_date = vest_date ∧ dateYear sale.sell_date = target_year
      then acc + sale.sell_price_inr else acc) 0

/-- The per-missing-field diagnostics printed at fa_calculator.py:1556-1567
(one line per `None` input, in source order). -/
def missingFieldMsgs (vest_price jan1_price dec31_price : Option Rat)
    (peak_price : Option (Rat × Date)) (vest_rate dec31_rate : Option Rat) :
    List String :=
  (if vest_price = none then ["purchase price"] else []) ++
  (if jan1_price = none then ["jan 1 price"] else []) ++
  (if dec31_price = none then ["dec 31 price"] else []) ++
  (if peak_price = none then ["peak price"] else []) ++
  (if vest_rate = none then ["vest date sbi rate"] else []) ++
  (if dec31_rate = none then ["dec 31 sbi rate"] else [])

/-- The body of the per-vest loop of `process_fa_calculations`
(fa_calculator.py:1527-1623). -/
def processLot (o : Oracles) (year : Nat) (sell_data : SellData)
    (symbol : String) (vest : VestEntry) : LotOutcome :=
  let original_shares := vest.number_of_shares
  match validateSalesAndGetRemainingShares (lookupSales sell_data symbol)
      vest.vest_date original_shares with
  | none => .oversellAbort
  | some remaining_shares =>
    if remaining_shares = 0 then .skipFullySold
    else
      let vest_price := getPurchasePriceWithVestOverride o symbol vest
      let jan1_price := o.price symbol (jan1 year)
      let dec31_price := o.price symbol (dec31 year)
      let peak_pd := o.peak symbol vest.vest_date
      let vest_sbi_rate := o.rate vest.vest_date
      let dec31_sbi_rate := o.rate (dec31 year)
      match vest_price, jan1_price, dec31_price, peak_pd,
          vest_sbi_rate, dec31_sbi_rate with
      | some vp, some _, some d31p, some _, some vr, some d31r =>
          let initial_value := vp * (remaining_shares : Rat) * vr
          match calculatePeakValueWithSales year o.rate (o.pricesFor symbol)
              (lookupSales sell_data symbol) vest.vest_date original_shares with
          | none => .skipNoPeak
          | some peak_value =>
              let closing_balance := d31p * (remaining_shares : Rat) * d31r
              let gross_amount_paid : Rat := 0
              let gross_proceeds := getSaleProceedsForLotInYear
                (lookupSales sell_data symbol) vest.vest_date year
              .ok { symbol := symbol
                    vest_date := vest.vest_date
                    company := o.company symbol
                    acq_date := vest.vest_date
                    initial := pyRound initial_value
                    peak := pyRound peak_value
                    closing := pyRound closing_balance
                    paid := pyRound gross_amount_paid
                    proceeds := pyRound gross_proceeds }
      | vp, j1, d31, pk, vr, d31r =>
          .missingData (missingFieldMsgs vp j1 d31 pk vr d31r)

/-- The inner `for vest in vests` loop: abort-all on oversell or missing
data, skip on fully-sold / failed-peak lots, accumulate rows otherwise. -/
def processVestList (o : Oracles) (year : Nat) (sell_data : SellData)
    (symbol : String) : List VestEntry → List Row → Option (List Row)
  | [], acc => some acc
  | v :: vs, acc =>
      match processLot o year sell_data symbol v with
      | .oversellAbort => none
      | .missingData _ => none
      | .skipFullySold => processVestList o year sell_data symbol vs acc
      | .skipNoPeak => processVestList o year sell_data symbol vs acc
      | .ok r => processVestList o year sell_data symbol vs (acc ++ [r])

/-- The outer `for symbol, symbol_data in vest_data.items()` loop. -/
def processAll (o : Oracles) (year : Nat) (sell_data : SellData) :
    VestData → List Row → Option (List Row)
  | [], acc => some acc
  | (symbol, vests) :: rest, acc =>
      match processVestList o year sell_data symbol vests acc with
      | none => none
      | some acc' => processAll o year sell_data rest acc'

/-- `process_fa_calculations` steps 4-5 (the calculation loop and row
collection): `none` models `return False` / `sys.exit(1)`; rows are left
in processing order (the final `csv_rows.sort` is keyed by
`(symbol, vest_date)` and does not change row contents). -/
def processFA (o : Oracles) (year : Nat) (vest_data : VestData)
    (sell_data : SellData) : Option (List Row) :=
  processAll o year sell_data vest_data []

/-- `main` exits with status 1 when `process_fa_calculations` fails
(fa_calculator.py:1775-1779). -/
def exitCode (result : Option (List Row)) : Nat :=
  if result.isSome then 0 else 1

/-!
## `validate_year` (fa_calculator.py:143-186)

The loop over `vest.json` collects `int(vest["vest_date"][:4])`; here the
vest dates are passed in directly (their year field is `dateYear`), and
`datetime.now().year` is the `currentYear` parameter.
-/

/-- The `earliest_year` accumulation loop of `validate_year`. -/
def earliestVestYear (years : List Nat) : Option Nat :=
  years.foldl
    (fun earliest y =>
      match earliest with
      | none => some y
      | some m => if y < m then some y else some m) none

/-- `validate_year`: 4-digit check, strictly-before-current-year check,
then the earliest-vest-year check (`none` earliest, i.e. no vest dates at
all, is an error). -/
def validateYear (year currentYear : Nat) (vestDates : List Date) : Bool :=
  if ¬(1000 ≤ year ∧ year ≤ 9999) then false
  else if currentYear ≤ year then false
  else
    match earliestVestYear (vestDates.map dateYear) with
    | none => false
    | some earliest => if year < earliest then false else true

/-!
## `_filter_zero_shares` and `validate_and_prepare_data`
(fa_calculator.py:1064-1155)
-/

/-- `_filter_zero_shares(data, "vest")`: drop vests with 0 shares (with a
printed warning, not modelled) and drop symbols left without entries. -/
def filterZeroVests : VestData → VestData
  | [] => []
  | (symbol, vests) :: rest =>
      let kept := vests.filter (fun v => ¬ v.number_of_shares = 0)
      if kept.isEmpty then filterZeroVests rest
      else (symbol, kept) :: filterZeroVests rest

/-- `_filter_zero_shares(data, "sell")`: drop sales with 0 shares sold and
drop symbols left without entries. -/
def filterZeroSales : SellData → SellData
  | [] => []
  | (symbol, sales) :: rest =>
      let kept := sales.filter (fun s => ¬ s.number_of_shares_sold = 0)
      if kept.isEmpty then filterZeroSales rest
      else (symbol, kept) :: filterZeroSales rest

/-- The per-sale checks of `validate_and_prepare_data`
(fa_calculator.py:1131-1149): the sell date must be strictly after the
vest date, a vest with matching `vest_date` must exist for the symbol
(the source takes the first match and breaks), and that vest must hold at
least the sale's share count. -/
def saleChecks (vest_data : VestData) (symbol : String) (sale : Sale) : Bool :=
  (decide (sale.purchase_date < sale.sell_date)) &&
  (match (lookupVests vest_data symbol).find?
      (fun v => v.vest_date == sale.purchase_date) with
   | some vest => decide (sale.number_of_shares_sold ≤ vest.number_of_shares)
   | none => false)

/-- `validate_and_prepare_data`: zero-share filtering of both inputs, then
all per-sale checks; `none` models the `return None` failure (input-file
read errors are out of scope). -/
def validateAndPrepareData (vest_data : VestData) (sell_data : SellData) :
    Option (VestData × SellData) :=
  let vd := filterZeroVests vest_data
  let sd := filterZeroSales sell_data
  if sd.all (fun e => e.2.all (fun sale => saleChecks vd e.1 sale)) then
    some (vd, sd)
  else none

/-- An input `sell.json` with one extra sale appended to a symbol's list
(creating the symbol's entry when absent). -/
def addSale : SellData → String → Sale → SellData
  | [], symbol, sale => [(symbol, [sale])]
  | (sym, sales) :: rest, symbol, sale =>
      if sym == symbol then (sym, sales ++ [sale]) :: rest
      else (sym, sales) :: addSale rest symbol sale

/-!
## `get_stock_price` (fa_calculator.py:188-236)

For the fallback-day walk the relevant date structure is day arithmetic
and the day of week, so here a date is a day count `Day : Int`
(`datetime - timedelta(days=n)` is subtraction) with the epoch placed on
a Monday: `weekday d = d % 7` matches Python's
`datetime.weekday()` (Monday = 0 … Sunday = 6).
-/

abbrev Day := Int

/-- `datetime.weekday()` under the Monday-epoch day count. -/
def weekday (d : Day) : Int := d % 7

/-- The in-memory price cache
`public_data["stocks"][symbol]["prices"]`, with newest entry first
(prepending a pair shadows an older entry, matching dict assignment as
far as lookups are concerned). -/
structure PriceCache where
  prices : List ((String × Day) × Rat)
deriving DecidableEq, Repr

def lookupPrice (c : PriceCache) (symbol : String) (date : Day) : Option Rat :=
  (c.prices.find? (fun e => e.1.1 == symbol && e.1.2 == date)).map (·.2)

/-- The in-memory update performed by `_cache_stock_price`
(fa_calculator.py:255-271); the batch-tracking list is modelled in the
`CacheState` section below. -/
def cachePriceMem (c : PriceCache) (symbol : String) (date : Day)
    (price : Rat) : PriceCache :=
  ⟨((symbol, date), price) :: c.prices⟩

/-- The `for attempt in range(7)` walk of `get_stock_price`: try
`date - attempt`, skip Saturday/Sunday (`weekday >= 5`), query the
provider (`_fetch_yahoo_price`) otherwise, stop at the first hit with
`round(price, 2)`.  Also returns the list of days actually queried. -/
def fetchWalk (provider : String → Day → Option Rat) (symbol : String)
    (date : Day) : List Nat → List Day × Option (Day × Rat)
  | [] => ([], none)
  | attempt :: rest =>
      let temp := date - (attempt : Int)
      if 5 ≤ weekday temp then fetchWalk provider symbol date rest
      else
        match provider symbol temp with
        | some price => ([temp], some (temp, round2 price))
        | none =>
            let r := fetchWalk provider symbol date rest
            (temp :: r.1, r.2)

/-- `get_stock_price`: exact cache hit first; in `--no-internet` mode a
miss is an error (`none`); otherwise the 7-day backward walk, caching a
hit under both the resolved day and the originally requested date.
Returns (result, updated cache, provider-queried days). -/
def getStockPrice (provider : String → Day → Option Rat) (noInternet : Bool)
    (c : PriceCache) (symbol : String) (date : Day) :
    Option Rat × PriceCache × List Day :=
  match lookupPrice c symbol date with
  | some cached => (some cached, c, [])
  | none =>
    if noInternet then (none, c, [])
    else
      match fetchWalk provider symbol date (List.range 7) with
      | (queried, none) => (none, c, queried)
      | (queried, some (found, price)) =>
          let c1 := cachePriceMem c symbol found price
          let c2 := if found ≠ date then cachePriceMem c1 symbol date price
                    else c1
          (some price, c2, queried)

/-!
## `MarketDataCache` persistence (`save_public_data`, `_save_cache_silently`,
`_cache_stock_price`, `_cache_exchange_rate`, `_cache_company_info`,
`_cache_high_low_prices`)

`public_data` is the JSON structure; Python dicts preserve insertion
order and `json.dump` serializes in that order, so each map is an
association list and two structures serialize to byte-identical JSON iff
the corresponding `PublicData` values are equal.  Price and rate values
(`"82.75"` strings / floats in the file) are modelled as `Rat`.
-/

/-- `public_data["stocks"][symbol]`. -/
structure StockData where
  prices : List (Date × Rat)
  company_info : List (String × String)
  high_low : List (Date × (Rat × Rat))
deriving DecidableEq, Repr

/-- The whole `public_data` structure. -/
structure PublicData where
  stocks : List (String × StockData)
  exchange_rates : List (Date × Rat)
  country_mapping : List (String × Nat)
deriving DecidableEq, Repr

/-!
### Sorting of association lists by key

Python's `sorted(d.items())` sorts pairs by key (`str` keys compare by
code points, date keys equivalently as `Date` numerals).  `sortPairs`
is insertion sort by a boolean strict key order; `LawfulKeyLt` packages
the strict-total-order laws that both key orders satisfy.
-/

/-- Python `str` comparison: lexicographic on code points. -/
def lexLt : List Char → List Char → Bool
  | [], [] => false
  | [], _ :: _ => true
  | _ :: _, [] => false
  | a :: as, b :: bs =>
      if a < b then true
      else if b < a then false
      else lexLt as bs

def strLt (a b : String) : Bool := lexLt a.data b.data

def natLt (a b : Nat) : Bool := a < b

/-- A boolean strict total order on keys. -/
class LawfulKeyLt {K : Type} (klt : K → K → Bool) : Prop where
  asymm : ∀ a b : K, klt a b = true → klt b a = false
  lt_trans : ∀ a b c : K, klt a b = true → klt b c = true → klt a c = true
  conn : ∀ a b : K, klt a b = false → klt b a = false → a = b

lemma lexLt_asymm (a : List Char) : ∀ b, lexLt a b = true → lexLt b a = false := by
  induction a with
  | nil =>
      intro b h
      cases b with
      | nil => simp [lexLt] at h
      | cons y ys => simp [lexLt]
  | cons x xs ih =>
      intro b h
      cases b with
      | nil => simp [lexLt] at h
      | cons y ys =>
          simp only [lexLt] at h ⊢
          rcases lt_trichotomy x y with hc | hc | hc
          · rw [if_neg (not_lt_of_lt hc), if_pos hc]
          · subst hc
            rw [if_neg (lt_irrefl x), if_neg (lt_irrefl x)] at h ⊢
            exact ih ys h
          · rw [if_neg (not_lt_of_lt hc), if_pos hc] at h
            exact absurd h (by simp)

lemma lexLt_trans (a : List Char) : ∀ b c, lexLt a b = true → lexLt b c = true →
    lexLt a c = true := by
  induction a with
  | nil =>
      intro b c h1 h2
      cases b with
      | nil => simp [lexLt] at h1
      | cons y ys =>
          cases c with
          | nil => simp [lexLt] at h2
          | cons z zs => simp [lexLt]
  | cons x xs ih =>
      intro b c h1 h2
      cases b with
      | nil => simp [lexLt] at h1
      | cons y ys =>
          cases c with
          | nil => simp [lexLt] at h2
          | cons z zs =>
              simp only [lexLt] at h1 h2 ⊢
              rcases lt_trichotomy x y with hxy | hxy | hxy <;>
                rcases lt_trichotomy y z with hyz | hyz | hyz
              · rw [if_pos (lt_trans hxy hyz)]
              · subst hyz; rw [if_pos hxy]
              · rcases lt_trichotomy x z with hxz | hxz | hxz
                · rw [if_pos hxz]
                · subst hxz
                  rw [if_neg (not_lt_of_lt hyz), if_pos hyz] at h2
                  exact absurd h2 (by simp)
                · rw [if_neg (not_lt_of_lt hyz), if_pos hyz] at h2
                  exact absurd h2 (by simp)
              · subst hxy; rw [if_pos hyz]
              · subst hxy; subst hyz
                rw [if_neg (lt_irrefl x), if_neg (lt_irrefl x)] at h1 h2 ⊢
                exact ih ys zs h1 h2
              · subst hxy
                rw [if_neg (not_lt_of_lt hyz), if_pos hyz] at h2
                exact absurd h2 (by simp)
              · rw [if_neg (not_lt_of_lt hxy), if_pos hxy] at h1
                exact absurd h1 (by simp)
              · rw [if_neg (not_lt_of_lt hxy), if_pos hxy] at h1
                exact absurd h1 (by simp)
              · rw [if_neg (not_lt_of_lt hxy), if_pos hxy] at h1
                exact absurd h1 (by simp)

lemma lexLt_conn (a : List Char) : ∀ b, lexLt a b = false → lexLt b a = false →
    a = b := by
  induction a with
  | nil =>
      intro b h1 _
      cases b with
      | nil => rfl
      | cons y ys => simp [lexLt] at h1
  | cons x xs ih =>
      intro b h1 h2
      cases b with
      | nil => simp [lexLt] at h2
      | cons y ys =>
          simp only [lexLt] at h1 h2
          rcases lt_trichotomy x y with hc | hc | hc
          · rw [if_pos hc] at h1
            exact absurd h1 (by simp)
          · subst hc
            rw [if_neg (lt_irrefl x), if_neg (lt_irrefl x)] at h1 h2
            rw [ih ys h1 h2]
          · rw [if_pos hc] at h2
            exact absurd h2 (by simp)

instance : LawfulKeyLt strLt where
  asymm a b h := lexLt_asymm a.data b.data h
  lt_trans a b c h1 h2 := lexLt_trans a.data b.data c.data h1 h2
  conn a b h1 h2 := by
    cases a; cases b
    exact congrArg String.mk (lexLt_conn _ _ h1 h2)

instance : LawfulKeyLt natLt where
  asymm a b h := by
    simp only [natLt, decide_eq_true_eq] at h
    simp [natLt, Nat.not_lt.mpr (Nat.le_of_lt h)]
  lt_trans a b c h1 h2 := by
    simp only [natLt, decide_eq_true_eq] at h1 h2 ⊢
    exact Nat.lt_trans h1 h2
  conn a b h1 h2 := by
    simp only [natLt, decide_eq_false_iff_not, Nat.not_lt] at h1 h2
    exact Nat.le_antisymm h2 h1

/-- `dict(sorted(d.items()))`: sort key/value pairs ascending by key
(insertion sort is stable, like Python's sort; keys of a dict are
distinct so stability is irrelevant here). -/
def sortPairs {K V : Type} (klt : K → K → Bool) (l : List (K × V)) :
    List (K × V) :=
  List.insertionSort (fun a b => klt b.1 a.1 = false) l

section SortPairsLemmas

variable {K V : Type} (klt : K → K → Bool) [LawfulKeyLt klt]

lemma keyLe_total (a b : K × V) :
    (klt b.1 a.1 = false) ∨ (klt a.1 b.1 = false) := by
  cases h : klt b.1 a.1 with
  | false => exact Or.inl rfl
  | true => exact Or.inr (LawfulKeyLt.asymm _ _ h)

lemma keyLe_trans (a b c : K × V) (h1 : klt b.1 a.1 = false)
    (h2 : klt c.1 b.1 = false) : klt c.1 a.1 = false := by
  cases h : klt c.1 a.1 with
  | false => rfl
  | true =>
      exfalso
      cases hab : klt a.1 b.1 with
      | true =>
          have := LawfulKeyLt.lt_trans c.1 a.1 b.1 h hab
          rw [this] at h2; exact Bool.noConfusion h2
      | false =>
          have hk := LawfulKeyLt.conn a.1 b.1 hab h1
          rw [hk] at h
          rw [h] at h2; exact Bool.noConfusion h2

lemma sortPairs_perm (l : List (K × V)) : (sortPairs klt l).Perm l :=
  List.perm_insertionSort _ l

lemma sortPairs_sorted (l : List (K × V)) :
    (sortPairs klt l).Sorted (fun a b => klt b.1 a.1 = false) := by
  haveI : IsTotal (K × V) (fun a b => klt b.1 a.1 = false) :=
    ⟨fun a b => keyLe_total klt a b⟩
  haveI : IsTrans (K × V) (fun a b => klt b.1 a.1 = false) :=
    ⟨fun a b c h1 h2 => keyLe_trans klt a b c h1 h2⟩
  exact List.sorted_insertionSort _ l

lemma sortPairs_of_sorted {l : List (K × V)}
    (h : l.Sorted (fun a b => klt b.1 a.1 = false)) : sortPairs klt l = l :=
  List.Sorted.insertionSort_eq h

lemma sortPairs_idem (l : List (K × V)) :
    sortPairs klt (sortPairs klt l) = sortPairs klt l :=
  sortPairs_of_sorted klt (sortPairs_sorted klt l)

lemma sorted_strict_of_sorted_nodup {l : List (K × V)}
    (hs : l.Sorted (fun a b => klt b.1 a.1 = false))
    (hn : l.Pairwise (fun a b => a.1 ≠ b.1)) :
    l.Sorted (fun a b => klt a.1 b.1 = true) := by
  refine hs.imp₂ (fun a b hle hne => ?_) hn
  cases h : klt a.1 b.1 with
  | true => rfl
  | false => exact absurd (LawfulKeyLt.conn a.1 b.1 h hle) hne

/-- Two permuted association lists with pairwise-distinct keys have the
same canonical (sorted) form. -/
lemma sortPairs_eq_of_perm {l₁ l₂ : List (K × V)} (hp : l₁.Perm l₂)
    (hn : l₁.Pairwise (fun a b => a.1 ≠ b.1)) :
    sortPairs klt l₁ = sortPairs klt l₂ := by
  haveI : IsAntisymm (K × V) (fun a b => klt a.1 b.1 = true) := by
    refine ⟨fun a b h1 h2 => ?_⟩
    have := LawfulKeyLt.asymm a.1 b.1 h1
    rw [this] at h2; exact Bool.noConfusion h2
  have hn₂ : l₂.Pairwise (fun a b : K × V => a.1 ≠ b.1) :=
    (List.Perm.pairwise_iff (fun h => Ne.symm h) hp).mp hn
  have hperm : (sortPairs klt l₁).Perm (sortPairs klt l₂) :=
    ((sortPairs_perm klt l₁).trans hp).trans (sortPairs_perm klt l₂).symm
  refine List.eq_of_perm_of_sorted (r := fun a b => klt a.1 b.1 = true)
    hperm ?_ ?_
  · exact sorted_strict_of_sorted_nodup klt (sortPairs_sorted klt l₁)
      (((sortPairs_perm klt l₁).pairwise_iff
        (fun h => Ne.symm h)).mpr hn)
  · exact sorted_strict_of_sorted_nodup klt (sortPairs_sorted klt l₂)
      (((sortPairs_perm klt l₂).pairwise_iff
        (fun h => Ne.symm h)).mpr hn₂)

end SortPairsLemmas

/-!
### `save_public_data` (fa_calculator.py:109-141)

`json.dump` writes dicts in iteration order, so the file bytes are
determined by (and determine) the `PublicData` value written; byte
identity of two saves is equality of the `savePublicDataPure` results.
-/

/-- The per-stock entry of `sorted_data`: prices and high/low sorted by
date, `company_info` passed through unchanged. -/
def sortStockEntry (sd : StockData) : StockData :=
  { prices := sortPairs natLt sd.prices
    company_info := sd.company_info
    high_low := sortPairs natLt sd.high_low }

/-- The `sorted_data` structure built by `save_public_data`: stock
symbols sorted lexicographically, date-keyed maps sorted
chronologically, `country_mapping` passed through unchanged (the source
substitutes a default mapping only when the key is absent; the field is
always present here). -/
def savePublicDataPure (d : PublicData) : PublicData :=
  { stocks := (sortPairs strLt d.stocks).map (fun e => (e.1, sortStockEntry e.2))
    exchange_rates := sortPairs natLt d.exchange_rates
    country_mapping := d.country_mapping }

/-!
### Checkpoint-on-write cache operations
(`_cache_stock_price` fa_calculator.py:255-271,
`_cache_exchange_rate` 359-367, `_cache_company_info` 559-569,
`_cache_high_low_prices` 1474-1488, `_save_cache_silently` 1044-1049)
-/

/-- Generic dict assignment `d[k] = v` on an association list. -/
def dictSet {K V : Type} [BEq K] : List (K × V) → K → V → List (K × V)
  | [], k, v => [(k, v)]
  | (k', v') :: rest, k, v =>
      if k' == k then (k', v) :: rest else (k', v') :: dictSet rest k v

/-- Get-or-create-then-update on an association list (the
`if symbol not in ...: ... = {}` pattern before a nested assignment). -/
def updateAssoc {K V : Type} [BEq K] : List (K × V) → K → V → (V → V) →
    List (K × V)
  | [], k, dflt, f => [(k, f dflt)]
  | (k', v') :: rest, k, dflt, f =>
      if k' == k then (k', f v') :: rest
      else (k', v') :: updateAssoc rest k dflt f

/-- The skeleton created by `_cache_stock_price` for a new symbol
(`{"prices": {}, "company_info": {}}`; absent keys are empty maps here). -/
def emptyStock : StockData :=
  { prices := [], company_info := [], high_low := [] }

/-- One entry of `self.fetched_data['stock_prices']`. -/
structure StockPriceFetch where
  symbol : String
  date : Date
  price : Rat
deriving DecidableEq, Repr

/-- In-memory cache state plus the persisted `public_data.json` contents.
`diskOk` says whether writing the file succeeds; `persisted = none` means
no file has been written yet. -/
structure CacheState where
  publicData : PublicData
  pendingStockPrices : List StockPriceFetch
  persisted : Option PublicData
  diskOk : Bool
deriving DecidableEq, Repr

/-- `save_public_data` as an effectful operation: on success the sorted
snapshot is written to disk and becomes the in-memory structure
(`self.public_data = sorted_data`); a failing write raises
(`.error`), leaving both memory and file unchanged. -/
def savePublicDataOp (st : CacheState) : Except Unit CacheState :=
  if st.diskOk then
    .ok { st with publicData := savePublicDataPure st.publicData
                  persisted := some (savePublicDataPure st.publicData) }
  else .error ()

/-- `_save_cache_silently`: `try: save_public_data() except: pass`. -/
def saveCacheSilently (st : CacheState) : CacheState :=
  match savePublicDataOp st with
  | .ok st' => st'
  | .error _ => st

/-- `_cache_stock_price`: updates the in-memory price map and appends to
the `fetched_data` batch.  It performs no save. -/
def cacheStockPrice (st : CacheState) (symbol : String) (date : Date)
    (price : Rat) : CacheState :=
  { st with
    publicData :=
      { st.publicData with
        stocks := updateAssoc st.publicData.stocks symbol emptyStock
          (fun sd => { sd with prices := dictSet sd.prices date price }) }
    pendingStockPrices := st.pendingStockPrices ++
      [{ symbol := symbol, date := date, price := price }] }

/-- `_cache_exchange_rate`: in-memory update then an immediate silent
save. -/
def cacheExchangeRate (st : CacheState) (date : Date) (rate : Rat) :
    CacheState :=
  saveCacheSilently
    { st with
      publicData :=
        { st.publicData with
          exchange_rates := dictSet st.publicData.exchange_rates date rate } }

/-- `_cache_company_info`: in-memory update then an immediate silent
save. -/
def cacheCompanyInfo (st : CacheState) (symbol : String)
    (info : List (String × String)) : CacheState :=
  saveCacheSilently
    { st with
      publicData :=
        { st.publicData with
          stocks := updateAssoc st.publicData.stocks symbol emptyStock
            (fun sd => { sd with company_info := info }) } }

/-- `_cache_high_low_prices`: in-memory update (values rounded to two
decimals) then an immediate silent save. -/
def cacheHighLowPrices (st : CacheState) (symbol : String) (date : Date)
    (low high : Rat) : CacheState :=
  saveCacheSilently
    { st with
      publicData :=
        { st.publicData with
          stocks := updateAssoc st.publicData.stocks symbol emptyStock
            (fun sd =>
              { sd with
                high_low := dictSet sd.high_low date (round2 low, round2 high) }) } }

/-!
## Run trace (`process_fa_calculations` at the event level)

For the network-ordering claim the run is modelled as the sequence of
observable events of `process_fa_calculations`: step 1 is
`validate_and_prepare_data` (pure, no network), step 2 is
`fetch_required_data` (all provider fetches), and step 4's per-lot loop
is where `validate_sales_and_get_remaining_shares` can `sys.exit(1)` on a
cumulative over-sell.  `fetchEvents` models the specific-date fetch loop
of `fetch_required_data` (fa_calculator.py:1246-1282) for dates missing
from the cache; the bulk whole-year prefetch (lines 1231-1243) is further
network activity before step 4 and is conservatively not modelled, and
the `set` de-duplication of required dates only collapses repeats.
-/

inductive Event where
  | fetchPrice (symbol : String) (date : Date)
  | oversellExit (symbol : String) (vest_date : Date)
deriving DecidableEq, Repr

inductive RunResult where
  | validationFailed
  | oversellFailed
  | finished
deriving DecidableEq, Repr

/-- `symbol_specific_dates[symbol]` (fa_calculator.py:1202-1228): vest
dates, Jan 1 and Dec 31 of the target year, and the symbol's sell
dates. -/
def symbolSpecificDates (year : Nat) (sell_data : SellData) (symbol : String)
    (vests : List VestEntry) : List Date :=
  vests.map (fun v => v.vest_date) ++ [jan1 year, dec31 year] ++
    (lookupSales sell_data symbol).map (fun s => s.sell_date)

/-- The fetches issued by the specific-dates loop of
`fetch_required_data`: one provider fetch per required date not already
cached. -/
def fetchEvents (cached : String → Date → Bool) (year : Nat)
    (sell_data : SellData) : VestData → List Event
  | [] => []
  | (symbol, vests) :: rest =>
      ((symbolSpecificDates year sell_data symbol vests).filter
          (fun d => ¬ cached symbol d = true)).map (Event.fetchPrice symbol) ++
        fetchEvents cached year sell_data rest

/-- The first lot (in processing order) whose cumulative sold shares
exceed its vested shares — the lot at which
`validate_sales_and_get_remaining_shares` calls `sys.exit(1)` in step 4. -/
def findOversell (sell_data : SellData) : VestData → Option (String × Date)
  | [] => none
  | (symbol, vests) :: rest =>
      match vests.find? (fun v =>
          v.number_of_shares <
            totalSoldFor (lookupSales sell_data symbol) v.vest_date) with
      | some v => some (symbol, v.vest_date)
      | none => findOversell sell_data rest

/-- Event-level run of `process_fa_calculations`: a validation failure
produces no events at all; otherwise all fetches of step 2 happen, and a
cumulative over-sell aborts in step 4 — after the fetches.  (`finished`
glosses the remainder of a successful run.) -/
def runTrace (cached : String → Date → Bool) (year : Nat)
    (vest_data : VestData) (sell_data : SellData) : List Event × RunResult :=
  match validateAndPrepareData vest_data sell_data with
  | none => ([], .validationFailed)
  | some (vd, sd) =>
      let fetches := fetchEvents cached year sd vd
      match findOversell sd vd with
      | some (symbol, d) =>
          (fetches ++ [.oversellExit symbol d], .oversellFailed)
      | none => (fetches, .finished)

/-!
# Claim theorems
-/

/-!
## C3 — lot share conservation and over-sell abort
-/

lemma totalSoldFor_eq_sum (symbolSales : List Sale) (vest_date : Date) :
    totalSoldFor symbolSales vest_date =
      ((symbolSales.filter (fun s => s.purchase_date = vest_date)).map
        (fun s => s.number_of_shares_sold)).sum := by
  induction symbolSales with
  | nil => simp [totalSoldFor]
  | cons s rest ih =>
      simp only [totalSoldFor, List.foldl_cons, List.filter_cons]
      rw [totalSoldFor_acc]
      by_cases h : s.purchase_date = vest_date
      · have hd : decide (s.purchase_date = vest_date) = true := by simp [h]
        rw [if_pos h, hd, if_pos rfl]
        simp only [List.map_cons, List.sum_cons]
        rw [← ih]
        omega
      · have hd : decide (s.purchase_date = vest_date) = false := by simp [h]
        rw [if_neg h, hd, if_neg Bool.false_ne_true]
        rw [← ih]
        omega

/-- C3: `validate_sales_and_get_remaining_shares` returns
`shares_vested − Σ shares_sold` over the sales referencing the lot, the
result is never negative, and the over-sell case (`Σ shares_sold` greater
than `shares_vested`) is exactly the fatal abort (`sys.exit(1)`,
modelled `none`) — never a clamped or negative value. -/
theorem c3_shares_remaining_conservation (symbolSales : List Sale)
    (vest_date : Date) (original_shares : Int) :
    (∀ r, validateSalesAndGetRemainingShares symbolSales vest_date
        original_shares = some r →
      r = original_shares -
        ((symbolSales.filter (fun s => s.purchase_date = vest_date)).map
          (fun s => s.number_of_shares_sold)).sum ∧ 0 ≤ r) ∧
    (validateSalesAndGetRemainingShares symbolSales vest_date
        original_shares = none ↔
      original_shares <
        ((symbolSales.filter (fun s => s.purchase_date = vest_date)).map
          (fun s => s.number_of_shares_sold)).sum) := by
  rw [← totalSoldFor_eq_sum]
  unfold validateSalesAndGetRemainingShares
  by_cases h : original_shares < totalSoldFor symbolSales vest_date
  · simp only [if_pos h]
    exact ⟨fun r hr => Option.noConfusion hr, by simp [h]⟩
  · simp only [if_neg h]
    refine ⟨fun r hr => ?_, by simp [h]⟩
    obtain rfl : original_shares - totalSoldFor symbolSales vest_date = r :=
      Option.some.inj hr
    exact ⟨rfl, by omega⟩

/-- The sale record of the golden partial-sale fixture. -/
def saleGamma : Sale :=
  ⟨20230201, 20230815, 75, 825000⟩

/-- C3 witness: a lot of 200 shares with a single 75-share sale leaves
125 ≥ 0 remaining shares. -/
theorem c3_shares_remaining_conservation_witness :
    validateSalesAndGetRemainingShares [saleGamma] 20230201 200 =
      some 125 ∧ (125 : Int) = 200 -
        (([saleGamma].filter (fun s => s.purchase_date = 20230201)).map
          (fun s => s.number_of_shares_sold)).sum ∧ (0 : Int) ≤ 125 := by
  have heval : validateSalesAndGetRemainingShares [saleGamma] 20230201 200 =
      some 125 := by
    simp [validateSalesAndGetRemainingShares, totalSoldFor, saleGamma]
  have h := (c3_shares_remaining_conservation [saleGamma] 20230201 200).1
    125 heval
  exact ⟨heval, h.1, h.2⟩

/-!
## C9 — `validate_year` acceptance condition
-/

lemma earliestVestYear_go (ys : List Nat) (m : Nat) :
    ys.foldl
      (fun earliest y =>
        match earliest with
        | none => some y
        | some m => if y < m then some y else some m) (some m) =
      some (ys.foldl min m) := by
  induction ys generalizing m with
  | nil => rfl
  | cons y rest ih =>
      simp only [List.foldl_cons]
      have hmin : (if y < m then some y else some m) = some (min m y) := by
        rcases Nat.lt_or_ge y m with h | h
        · rw [if_pos h, Nat.min_def, if_neg (by omega)]
        · rw [if_neg (by omega), Nat.min_def, if_pos h]
      rw [hmin, ih]

lemma foldl_min_le_self (ys : List Nat) (m : Nat) : ys.foldl min m ≤ m := by
  induction ys generalizing m with
  | nil => simp
  | cons y rest ih =>
      simp only [List.foldl_cons]
      exact le_trans (ih (min m y)) (Nat.min_le_left m y)

lemma foldl_min_le_mem (ys : List Nat) (m : Nat) :
    ∀ y ∈ ys, ys.foldl min m ≤ y := by
  induction ys generalizing m with
  | nil => simp
  | cons z rest ih =>
      intro y hy
      rcases List.mem_cons.mp hy with rfl | hy
      · exact le_trans (foldl_min_le_self rest (min m y)) (Nat.min_le_right m y)
      · exact ih (min m z) y hy

lemma foldl_min_mem (ys : List Nat) (m : Nat) :
    ys.foldl min m = m ∨ ys.foldl min m ∈ ys := by
  induction ys generalizing m with
  | nil => simp
  | cons y rest ih =>
      simp only [List.foldl_cons]
      rcases ih (min m y) with h | h
      · rcases Nat.le_total m y with hm | hm
        · exact Or.inl (by rw [h, Nat.min_eq_left hm])
        · exact Or.inr (by
            rw [h, Nat.min_eq_right hm]
            exact List.mem_cons_self y rest)
      · exact Or.inr (List.mem_cons_of_mem y h)

/-- C9: `validate_year` accepts exactly the 4-digit years strictly below
the current calendar year and at least the earliest vest year present in
the vesting input; in particular the current year itself is rejected and
an input with no vest dates rejects every year. -/
theorem c9_validate_year_acceptance (year currentYear : Nat)
    (vestDates : List Date) :
    validateYear year currentYear vestDates = true ↔
      (1000 ≤ year ∧ year ≤ 9999 ∧ year < currentYear ∧
        ∃ e ∈ vestDates.map dateYear,
          (∀ y ∈ vestDates.map dateYear, e ≤ y) ∧ e ≤ year) := by
  unfold validateYear
  by_cases h4 : 1000 ≤ year ∧ year ≤ 9999
  case neg =>
    rw [if_pos h4]
    constructor
    · intro h; exact Bool.noConfusion h
    · rintro ⟨h1, h2, _⟩; exact absurd ⟨h1, h2⟩ h4
  case pos =>
    rw [if_neg (not_not_intro h4)]
    by_cases hc : currentYear ≤ year
    · rw [if_pos hc]
      constructor
      · intro h; exact Bool.noConfusion h
      · rintro ⟨_, _, h3, _⟩; omega
    · rw [if_neg hc]
      cases hys : vestDates.map dateYear with
      | nil =>
          simp only [earliestVestYear, List.foldl_nil]
          constructor
          · intro h; exact Bool.noConfusion h
          · rintro ⟨_, _, _, e, he, _⟩
            simp at he
      | cons y ys =>
          simp only [earliestVestYear, List.foldl_cons]
          rw [earliestVestYear_go]
          have hred : (match some (ys.foldl min y) with
              | none => false
              | some earliest =>
                  if year < earliest then false else true) =
              (if year < ys.foldl min y then false else true) := rfl
          rw [hred]
          by_cases hle : year < ys.foldl min y
          · rw [if_pos hle]
            constructor
            · intro h; exact Bool.noConfusion h
            · rintro ⟨_, _, _, e, he, hlb, hey⟩
              have h1 : ys.foldl min y ≤ e := by
                rcases List.mem_cons.mp he with rfl | hmem
                · exact foldl_min_le_self ys e
                · exact foldl_min_le_mem ys y e hmem
              omega
          · rw [if_neg hle]
            simp only [true_iff]
            refine ⟨h4.1, h4.2, by omega, ys.foldl min y, ?_, ?_, by omega⟩
            · rcases foldl_min_mem ys y with h | h
              · rw [h]; exact List.mem_cons_self y ys
              · exact List.mem_cons_of_mem y h
            · intro z hz
              rcases List.mem_cons.mp hz with rfl | hmem
              · exact foldl_min_le_self ys z
              · exact foldl_min_le_mem ys y z hmem

/-- C9 witness: with vest years {2021, 2023} and current year 2025, the
year 2022 is accepted. -/
theorem c9_validate_year_acceptance_witness :
    validateYear 2022 2025 [20210315, 20230201] = true := by
  exact (c9_validate_year_acceptance 2022 2025 [20210315, 20230201]).mpr
    ⟨by norm_num, by norm_num, by norm_num,
      2021, by simp [dateYear], by simp [dateYear], by norm_num⟩

/-!
## C10 — zero-share records are dropped before validation
-/

lemma filterZeroSales_addSale (sd : SellData) (symbol : String) (sale : Sale)
    (h : sale.number_of_shares_sold = 0) :
    filterZeroSales (addSale sd symbol sale) = filterZeroSales sd := by
  have hdrop : ∀ l : List Sale,
      (l ++ [sale]).filter (fun s => ¬ s.number_of_shares_sold = 0) =
        l.filter (fun s => ¬ s.number_of_shares_sold = 0) := by
    intro l
    rw [List.filter_append]
    simp [List.filter, h]
  induction sd with
  | nil =>
      simp only [addSale, filterZeroSales]
      simp [List.filter, h, List.isEmpty_nil]
  | cons e rest ih =>
      obtain ⟨sym, sales⟩ := e
      simp only [addSale]
      by_cases hs : (sym == symbol) = true
      · rw [if_pos hs]
        simp only [filterZeroSales]
        rw [hdrop sales]
      · rw [if_neg hs]
        simp only [filterZeroSales]
        rw [ih]

/-- C10: `_filter_zero_shares` runs before the validation rules of
`validate_and_prepare_data`, so adding a sale record with
`number_of_shares_sold == 0` to the input — whatever its linked
`purchase_date` and `sell_date` are — never changes the validation
outcome; in particular it never causes a validation failure. -/
theorem c10_zero_share_sale_never_fails_validation (vest_data : VestData)
    (sell_data : SellData) (symbol : String) (sale : Sale)
    (h : sale.number_of_shares_sold = 0) :
    validateAndPrepareData vest_data (addSale sell_data symbol sale) =
      validateAndPrepareData vest_data sell_data := by
  unfold validateAndPrepareData
  rw [filterZeroSales_addSale sell_data symbol sale h]

/-- C10 witness: a zero-share sale with a `purchase_date` matching no
vest and a `sell_date` before its vest date still validates: the
outcome equals the outcome without it, which is a success. -/
theorem c10_zero_share_sale_never_fails_validation_witness :
    validateAndPrepareData [("GAMMA", [⟨20230201, 200, none⟩])]
        (addSale [] "GAMMA" ⟨11111111, 11111105, 0, 0⟩) =
      validateAndPrepareData [("GAMMA", [⟨20230201, 200, none⟩])] [] ∧
    (validateAndPrepareData [("GAMMA", [⟨20230201, 200, none⟩])]
        []).isSome = true := by
  constructor
  · exact c10_zero_share_sale_never_fails_validation
      [("GAMMA", [⟨20230201, 200, none⟩])] [] "GAMMA"
      ⟨11111111, 11111105, 0, 0⟩ rfl
  · rfl

/-!
## C6 — validation failures vs. network activity
-/

/-- C6 counterexample: a lot of 100 shares with two 60-share sales (each
individually within the lot, so `validate_and_prepare_data` passes)
reaches the cumulative over-sell `sys.exit(1)` only in step 4, after
step 2 issued provider fetches: the first trace event is already a
fetch, refuting "aborts before any network activity" for over-sell. -/
theorem c6_oversell_fetches_before_abort_counterexample :
    (runTrace (fun _ _ => false) 2023
        [("GAMMA", [⟨20230201, 100, none⟩])]
        [("GAMMA", [⟨20230201, 20230601, 60, 400000⟩,
                    ⟨20230201, 20230701, 60, 450000⟩])]).2 =
      RunResult.oversellFailed ∧
    (runTrace (fun _ _ => false) 2023
        [("GAMMA", [⟨20230201, 100, none⟩])]
        [("GAMMA", [⟨20230201, 20230601, 60, 400000⟩,
                    ⟨20230201, 20230701, 60, 450000⟩])]).1.head? =
      some (Event.fetchPrice "GAMMA" 20230201) := by
  constructor <;> rfl

/-- C6 (amended): the rules checked by `validate_and_prepare_data`
(lot/sale linkage, inverted dates, single-sale over-sell) abort the run
with no events — in particular before any provider fetch — while a
cumulative over-sell across several sales of one lot is detected only in
the calculation step, after all of step 2's fetches. -/
theorem c6_validation_before_network (cached : String → Date → Bool)
    (year : Nat) (vest_data : VestData) (sell_data : SellData) :
    (validateAndPrepareData vest_data sell_data = none →
      runTrace cached year vest_data sell_data = ([], .validationFailed)) ∧
    (∀ vd sd symbol d,
      validateAndPrepareData vest_data sell_data = some (vd, sd) →
      findOversell sd vd = some (symbol, d) →
      runTrace cached year vest_data sell_data =
        (fetchEvents cached year sd vd ++ [.oversellExit symbol d],
          .oversellFailed)) := by
  constructor
  · intro h
    unfold runTrace
    rw [h]
  · intro vd sd symbol d h1 h2
    unfold runTrace
    rw [h1]
    simp only [h2]

/-- C6 witness: a sale dated before its vest fails
`validate_and_prepare_data` and the trace is empty (no fetch). -/
theorem c6_validation_before_network_witness :
    runTrace (fun _ _ => false) 2023
        [("GAMMA", [⟨20230201, 100, none⟩])]
        [("GAMMA", [⟨20230201, 20230115, 10, 50000⟩])] =
      ([], .validationFailed) := by
  exact (c6_validation_before_network (fun _ _ => false) 2023
    [("GAMMA", [⟨20230201, 100, none⟩])]
    [("GAMMA", [⟨20230201, 20230115, 10, 50000⟩])]).1 rfl

/-!
## C2 — peak value selection
-/

lemma heldFold_acc (d : Date) (ls : List (Date × Int)) (a : Int) :
    ls.foldl (fun acc s => if s.1 ≤ d then acc - s.2 else acc) a =
      a - ((ls.filter (fun s => s.1 ≤ d)).map (fun s => s.2)).sum := by
  induction ls generalizing a with
  | nil => simp
  | cons s rest ih =>
      simp only [List.foldl_cons, List.filter_cons]
      by_cases h : s.1 ≤ d
      · have hd : decide (s.1 ≤ d) = true := by simp [h]
        rw [if_pos h, hd, if_pos rfl, ih]
        simp only [List.map_cons, List.sum_cons]
        omega
      · have hd : decide (s.1 ≤ d) = false := by simp [h]
        rw [if_neg h, hd, if_neg Bool.false_ne_true, ih]

lemma sharesHeldOn_nonneg (orig : Int) (ls : List (Date × Int)) (d : Date) :
    0 ≤ sharesHeldOn orig ls d :=
  le_max_left 0 _

/-- `shares_held(d)` unfolded: vested minus the lot's target-year sales
with `sell_date ≤ d`, clamped at 0. -/
lemma sharesHeldOn_lotSales (sells : List Sale) (vest_date : Date)
    (year : Nat) (orig : Int) (d : Date) :
    sharesHeldOn orig (lotSalesInYear sells vest_date year) d =
      max 0 (orig -
        ((sells.filter (fun s => s.purchase_date = vest_date ∧
            dateYear s.sell_date = year ∧ s.sell_date ≤ d)).map
          (fun s => s.number_of_shares_sold)).sum) := by
  unfold sharesHeldOn
  rw [heldFold_acc]
  congr 2
  induction sells with
  | nil => simp [lotSalesInYear]
  | cons s rest ih =>
      simp only [lotSalesInYear, List.filter_cons] at *
      by_cases h1 : s.purchase_date = vest_date ∧ dateYear s.sell_date = year
      · have hd1 : decide (s.purchase_date = vest_date ∧
            dateYear s.sell_date = year) = true := by simp [h1]
        rw [hd1, if_pos rfl]
        simp only [List.map_cons, List.filter_cons]
        by_cases h2 : s.sell_date ≤ d
        · have hd2 : decide ((s.sell_date, s.number_of_shares_sold).1 ≤ d) =
              true := by simp [h2]
          have hd3 : decide (s.purchase_date = vest_date ∧
              dateYear s.sell_date = year ∧ s.sell_date ≤ d) = true := by
            simp [h1.1, h1.2, h2]
          rw [hd2, if_pos rfl, hd3, if_pos rfl]
          simp only [List.map_cons, List.sum_cons]
          rw [ih]
        · have hd2 : decide ((s.sell_date, s.number_of_shares_sold).1 ≤ d) =
              false := by simp [h2]
          have hd3 : decide (s.purchase_date = vest_date ∧
              dateYear s.sell_date = year ∧ s.sell_date ≤ d) = false := by
            simp [h2]
          rw [hd2, if_neg Bool.false_ne_true, hd3, if_neg Bool.false_ne_true]
          exact ih
      · have hd1 : decide (s.purchase_date = vest_date ∧
            dateYear s.sell_date = year) = false := by simp [h1]
        have hd3 : decide (s.purchase_date = vest_date ∧
            dateYear s.sell_date = year ∧ s.sell_date ≤ d) = false := by
          rcases Decidable.not_and_iff_or_not.mp h1 with h | h <;> simp [h]
        rw [hd1, if_neg Bool.false_ne_true, hd3, if_neg Bool.false_ne_true]
        exact ih

/-- Invariants of the `max_usd_value` / `best_date` scan. -/
lemma peakScan_spec (orig : Int) (ls : List (Date × Int)) :
    ∀ (l : List (Date × Rat)) (m : Rat) (b : Option Date),
      (m ≤ (peakScan orig ls l (m, b)).1) ∧
      (∀ dp ∈ l, 0 < sharesHeldOn orig ls dp.1 →
        dp.2 * (sharesHeldOn orig ls dp.1 : Rat) ≤
          (peakScan orig ls l (m, b)).1) ∧
      (∀ d, (peakScan orig ls l (m, b)).2 = some d →
        (∃ p, (d, p) ∈ l ∧ 0 < sharesHeldOn orig ls d ∧
          (peakScan orig ls l (m, b)).1 =
            p * (sharesHeldOn orig ls d : Rat)) ∨
        (b = some d ∧ (peakScan orig ls l (m, b)).1 = m)) := by
  intro l
  induction l with
  | nil =>
      intro m b
      refine ⟨le_refl m, by simp, fun d hd => Or.inr ⟨hd, rfl⟩⟩
  | cons dp rest ih =>
      intro m b
      obtain ⟨d0, p0⟩ := dp
      simp only [peakScan]
      by_cases hheld : 0 < sharesHeldOn orig ls d0
      · rw [if_pos hheld]
        by_cases hgt : m < p0 * (sharesHeldOn orig ls d0 : Rat)
        · rw [if_pos hgt]
          obtain ⟨ih1, ih2, ih3⟩ :=
            ih (p0 * (sharesHeldOn orig ls d0 : Rat)) (some d0)
          refine ⟨le_trans (le_of_lt hgt) ih1, ?_, ?_⟩
          · intro dp hdp hpos
            rcases List.mem_cons.mp hdp with heq | hmem
            · rw [heq]
              exact ih1
            · exact ih2 dp hmem hpos
          · intro d hd
            rcases ih3 d hd with h | ⟨hb, hm⟩
            · obtain ⟨p, hp, hpos, hval⟩ := h
              exact Or.inl ⟨p, List.mem_cons_of_mem _ hp, hpos, hval⟩
            · obtain rfl : d0 = d := Option.some.inj hb
              exact Or.inl ⟨p0, List.mem_cons_self _ _, hheld, hm⟩
        · rw [if_neg hgt]
          obtain ⟨ih1, ih2, ih3⟩ := ih m b
          refine ⟨ih1, ?_, ?_⟩
          · intro dp hdp hpos
            rcases List.mem_cons.mp hdp with heq | hmem
            · rw [heq]
              exact le_trans (le_of_not_lt hgt) ih1
            · exact ih2 dp hmem hpos
          · intro d hd
            rcases ih3 d hd with h | hb
            · obtain ⟨p, hp, hpos, hval⟩ := h
              exact Or.inl ⟨p, List.mem_cons_of_mem _ hp, hpos, hval⟩
            · exact Or.inr hb
      · rw [if_neg hheld]
        obtain ⟨ih1, ih2, ih3⟩ := ih m b
        refine ⟨ih1, ?_, ?_⟩
        · intro dp hdp hpos
          rcases List.mem_cons.mp hdp with heq | hmem
          · rw [heq] at hpos
            exact absurd hpos hheld
          · exact ih2 dp hmem hpos
        · intro d hd
          rcases ih3 d hd with h | hb
          · obtain ⟨p, hp, hpos, hval⟩ := h
            exact Or.inl ⟨p, List.mem_cons_of_mem _ hp, hpos, hval⟩
          · exact Or.inr hb

/-- C2 (amended): when `calculate_peak_value_with_sales` returns a value,
there is a day `d*` with a cached price in
`[max(vest_date, Jan 1), Dec 31]` such that `shares_held(d*) > 0`, the
native-currency product `price × shares_held` of `d*` is maximal over
all cached days of the window (no exchange rate in the comparison), the
exchange rate is fetched for `d*` only, and the result is
`price(d*) × shares_held(d*) × rate(d*)` — where `shares_held(d)`
subtracts only the lot's sales **dated within the target year** with
`sell_date ≤ d` (clamped at 0), not all sales of the lot as the claim
states. -/
theorem c2_peak_value_selection (year : Nat) (rate : Date → Option Rat)
    (prices : List (Date × Rat)) (sells : List Sale) (vest_date : Date)
    (orig : Int) (v : Rat) :
    calculatePeakValueWithSales year rate prices sells vest_date orig =
      some v →
    ∃ dstar pstar r,
      (dstar, pstar) ∈ prices.filter
        (fun p => max vest_date (jan1 year) ≤ p.1 ∧ p.1 ≤ dec31 year) ∧
      0 < sharesHeldOn orig (lotSalesInYear sells vest_date year) dstar ∧
      (∀ dp ∈ prices.filter
          (fun p => max vest_date (jan1 year) ≤ p.1 ∧ p.1 ≤ dec31 year),
        dp.2 * (sharesHeldOn orig (lotSalesInYear sells vest_date year)
            dp.1 : Rat) ≤
          pstar * (sharesHeldOn orig (lotSalesInYear sells vest_date year)
            dstar : Rat)) ∧
      rate dstar = some r ∧
      v = pstar *
        (sharesHeldOn orig (lotSalesInYear sells vest_date year) dstar : Rat)
        * r ∧
      (∀ d : Date,
        sharesHeldOn orig (lotSalesInYear sells vest_date year) d =
          max 0 (orig -
            ((sells.filter (fun s => s.purchase_date = vest_date ∧
                dateYear s.sell_date = year ∧ s.sell_date ≤ d)).map
              (fun s => s.number_of_shares_sold)).sum)) := by
  intro h
  unfold calculatePeakValueWithSales at h
  set ls := lotSalesInYear sells vest_date year with hls
  set yp := prices.filter
    (fun p => max vest_date (jan1 year) ≤ p.1 ∧ p.1 ≤ dec31 year) with hyp
  by_cases he : yp.isEmpty
  · rw [if_pos he] at h
    exact absurd h (by simp)
  · rw [if_neg he] at h
    obtain ⟨m1, m2, m3⟩ := peakScan_spec orig ls yp 0 none
    rcases hscan : peakScan orig ls yp (0, none) with ⟨maxUsd, best⟩
    cases best with
    | none =>
        have h2 : (none : Option Rat) = some v := by
          rw [← h, hscan]
        exact absurd h2 (by simp)
    | some dstar =>
        have h2 : (match rate dstar with
            | none => (none : Option Rat)
            | some r => some (maxUsd * r)) = some v := by
          rw [← h, hscan]
        have hm1 : (0 : Rat) ≤ maxUsd := by
          have := m1
          rw [hscan] at this
          exact this
        rcases m3 dstar (by rw [hscan]) with hm | ⟨hb, _⟩
        · obtain ⟨pstar, hmem, hpos, hval⟩ := hm
          have hval' : maxUsd = pstar * (sharesHeldOn orig ls dstar : Rat) := by
            rw [← hval, hscan]
          cases hr : rate dstar with
          | none =>
              rw [hr] at h2
              exact absurd h2 (by simp)
          | some r =>
              rw [hr] at h2
              have hv : v = maxUsd * r := (Option.some.inj h2).symm
              refine ⟨dstar, pstar, r, hmem, hpos, ?_, hr, ?_, ?_⟩
              · intro dp hdp
                rw [← hval']
                by_cases hpos2 : 0 < sharesHeldOn orig ls dp.1
                · have := m2 dp hdp hpos2
                  rw [hscan] at this
                  exact this
                · have h0 : sharesHeldOn orig ls dp.1 = 0 := by
                    have := sharesHeldOn_nonneg orig ls dp.1
                    omega
                  rw [h0]
                  push_cast
                  rw [mul_zero]
                  exact hm1
              · rw [hv, hval']
              · intro d
                rw [hls]
                exact sharesHeldOn_lotSales sells vest_date year orig d
        · exact absurd hb (by simp)

/-- C2 counterexample: a 100-share lot vested 2022-06-01 with 50 shares
sold 2022-08-01 (before the target year 2023).  The claim's
`shares_held` over **all** sales of the lot with `sell_date ≤ d` gives
50 shares on 2023-03-01 and a peak of 10 × 50 × 80 = 40 000; the code
drops the sale via `sell_date.startswith(str(year))` and returns
10 × 100 × 80 = 80 000. -/
theorem c2_peak_value_selection_counterexample :
    calculatePeakValueWithSales 2023 (fun _ => some 80) [(20230301, 10)]
        [⟨20220601, 20220801, 50, 100000⟩] 20220601 100 = some 80000 ∧
    (10 : Rat) * ((100 - 50 : Int) : Rat) * 80 = 40000 ∧
    (80000 : Rat) ≠ 40000 := by
  refine ⟨?_, by norm_num, by norm_num⟩
  norm_num [calculatePeakValueWithSales, lotSalesInYear, peakScan,
    sharesHeldOn, dateYear, jan1, dec31, List.filter]

/-- C2 witness: the amended theorem applied to the concrete prior-year
sale scenario, with `d* = 2023-03-01`. -/
theorem c2_peak_value_selection_witness :
    ∃ dstar pstar r,
      (dstar, pstar) ∈ [((20230301 : Date), (10 : Rat))].filter
        (fun p => max 20220601 (jan1 2023) ≤ p.1 ∧ p.1 ≤ dec31 2023) ∧
      0 < sharesHeldOn 100
        (lotSalesInYear [⟨20220601, 20220801, 50, 100000⟩] 20220601 2023)
        dstar ∧
      (∀ dp ∈ [((20230301 : Date), (10 : Rat))].filter
          (fun p => max 20220601 (jan1 2023) ≤ p.1 ∧ p.1 ≤ dec31 2023),
        dp.2 * (sharesHeldOn 100
            (lotSalesInYear [⟨20220601, 20220801, 50, 100000⟩] 20220601 2023)
            dp.1 : Rat) ≤
          pstar * (sharesHeldOn 100
            (lotSalesInYear [⟨20220601, 20220801, 50, 100000⟩] 20220601 2023)
            dstar : Rat)) ∧
      (fun (_ : Date) => some (80 : Rat)) dstar = some r ∧
      (80000 : Rat) = pstar * (sharesHeldOn 100
        (lotSalesInYear [⟨20220601, 20220801, 50, 100000⟩] 20220601 2023)
        dstar : Rat) * r ∧
      (∀ d : Date,
        sharesHeldOn 100
            (lotSalesInYear [⟨20220601, 20220801, 50, 100000⟩] 20220601 2023)
            d =
          max 0 (100 -
            (([(⟨20220601, 20220801, 50, 100000⟩ : Sale)].filter
                (fun s => s.purchase_date = 20220601 ∧
                  dateYear s.sell_date = 2023 ∧ s.sell_date ≤ d)).map
              (fun s => s.number_of_shares_sold)).sum)) := by
  apply c2_peak_value_selection 2023 (fun _ => some 80) [(20230301, 10)]
    [⟨20220601, 20220801, 50, 100000⟩] 20220601 100 80000
  norm_num [calculatePeakValueWithSales, lotSalesInYear, peakScan,
    sharesHeldOn, dateYear, jan1, dec31, List.filter]

/-!
## C1 — initial value

Concrete fixtures reproducing the golden partial-sale scenario of the
core tests (data3): 200 GAMMA shares vested 2023-02-01 at a validated
vest price of $50, 75 shares sold 2023-08-15 for ₹825 000, SBI rate
82.75 on the vest date, 83.50 on the peak date 2023-07-01 (price $65) and
83.00 on Dec 31 (price $60).
-/

def gVest : VestEntry :=
  { vest_date := 20230201, number_of_shares := 200,
    vest_price_optional := some 50 }

def gSell : SellData := [("GAMMA", [saleGamma])]

def gCompany : CompanyInfo :=
  { country := "United States", name := "Gamma Technologies",
    address := "789 Gamma Road Gammatown TX", zip_code := "75001",
    nature := "Public Limited Company" }

def gOracles : Oracles :=
  { price := fun _ d => if d = 20230101 then some 48
      else if d = 20231231 then some 60 else none,
    rate := fun d => if d = 20230201 then some (331/4)
      else if d = 20231231 then some 83
      else if d = 20230701 then some (167/2) else none,
    peak := fun _ _ => some (65, 20230701),
    pricesFor := fun _ => [(20230701, 65), (20230815, 64)],
    company := fun _ => gCompany }

/-- The output row the code produces for the golden fixture. -/
def gRow : Row :=
  { symbol := "GAMMA", vest_date := 20230201, company := gCompany,
    acq_date := 20230201, initial := 517188, peak := 1085500,
    closing := 622500, paid := 0, proceeds := 825000 }

/-- C1 counterexample: on the golden fixture the code multiplies the
acquisition price by the 125 **remaining** shares
(`initial_value = vest_price * remaining_shares * vest_sbi_rate`,
fa_calculator.py:1576), giving 517 188; the claim's
`acquisition_price × shares_vested(original) × rate` would give
50 × 200 × 82.75 = 827 500 ≠ 517 188. -/
theorem c1_initial_value_counterexample :
    processLot gOracles 2023 gSell "GAMMA" gVest = .ok gRow ∧
    gRow.initial = 517188 ∧
    pyRound ((50 : Rat) * ((200 : Int) : Rat) * (331/4)) = 827500 ∧
    (517188 : Int) ≠ 827500 := by
  refine ⟨?_, rfl, by norm_num [pyRound], by norm_num⟩
  norm_num [processLot, gOracles, gSell, gVest, gRow, gCompany, saleGamma,
    lookupSales, validateSalesAndGetRemainingShares, totalSoldFor,
    getPurchasePriceWithVestOverride, calculatePeakValueWithSales,
    lotSalesInYear, sharesHeldOn, peakScan, dateYear, jan1, dec31,
    getSaleProceedsForLotInYear, pyRound]

/-- C1 (amended): for every lot that produces an output row, the row's
initial value is `int(round(acquisition_price × shares_remaining ×
exchange_rate(vest_date)))`, where `shares_remaining` is the vested
count minus all shares sold from the lot (not the original vested
count), and the acquisition price is the manually supplied vest price
when present, otherwise the resolved market close on the vest date. -/
theorem c1_initial_value_uses_remaining_shares (o : Oracles) (year : Nat)
    (sell_data : SellData) (symbol : String) (vest : VestEntry) (row : Row) :
    processLot o year sell_data symbol vest = .ok row →
    ∃ acq vr remaining,
      validateSalesAndGetRemainingShares (lookupSales sell_data symbol)
        vest.vest_date vest.number_of_shares = some remaining ∧
      remaining = vest.number_of_shares -
        totalSoldFor (lookupSales sell_data symbol) vest.vest_date ∧
      remaining ≠ 0 ∧
      (match vest.vest_price_optional with
       | some p => acq = p
       | none => o.price symbol vest.vest_date = some acq) ∧
      o.rate vest.vest_date = some vr ∧
      row.initial = pyRound (acq * (remaining : Rat) * vr) := by
  intro h
  simp only [processLot] at h
  split at h
  · exact absurd h (by simp)
  · rename_i remaining hv
    split at h
    · exact absurd h (by simp)
    · rename_i hz
      split at h
      · rename_i vp j1 d31 pk vr d31r hvp hj1 hd31 hpk hvr hd31r
        split at h
        · exact absurd h (by simp)
        · rename_i pv hpv
          have hrow := (LotOutcome.ok.inj h).symm
          have hrem : remaining = vest.number_of_shares -
              totalSoldFor (lookupSales sell_data symbol) vest.vest_date := by
            unfold validateSalesAndGetRemainingShares at hv
            by_cases hlt : vest.number_of_shares <
                totalSoldFor (lookupSales sell_data symbol) vest.vest_date
            · rw [if_pos hlt] at hv
              cases hv
            · rw [if_neg hlt] at hv
              exact (Option.some.inj hv).symm
          refine ⟨vp, vr, remaining, hv, hrem, hz, ?_, hvr, ?_⟩
          · cases hop : vest.vest_price_optional with
            | some p =>
                simp only [getPurchasePriceWithVestOverride, hop] at hvp
                exact (Option.some.inj hvp).symm
            | none =>
                simp only [getPurchasePriceWithVestOverride, hop] at hvp
                exact hvp
          · rw [hrow]
      · exact absurd h (by simp)

/-- C1 witness: the amended theorem applied to the golden fixture,
where the row's initial value 517 188 = round(50 × 125 × 82.75). -/
theorem c1_initial_value_uses_remaining_shares_witness :
    ∃ acq vr remaining,
      validateSalesAndGetRemainingShares (lookupSales gSell "GAMMA")
        gVest.vest_date gVest.number_of_shares = some remaining ∧
      remaining = gVest.number_of_shares -
        totalSoldFor (lookupSales gSell "GAMMA") gVest.vest_date ∧
      remaining ≠ 0 ∧
      (match gVest.vest_price_optional with
       | some p => acq = p
       | none => gOracles.price "GAMMA" gVest.vest_date = some acq) ∧
      gOracles.rate gVest.vest_date = some vr ∧
      gRow.initial = pyRound (acq * (remaining : Rat) * vr) := by
  apply c1_initial_value_uses_remaining_shares gOracles 2023 gSell "GAMMA"
    gVest gRow
  norm_num [processLot, gOracles, gSell, gVest, gRow, gCompany, saleGamma,
    lookupSales, validateSalesAndGetRemainingShares, totalSoldFor,
    getPurchasePriceWithVestOverride, calculatePeakValueWithSales,
    lotSalesInYear, sharesHeldOn, peakScan, dateYear, jan1, dec31,
    getSaleProceedsForLotInYear, pyRound]

/-!
## C5 — missing required inputs
-/

/-- A lot whose Jan-1/Dec-31 prices and vest-date exchange rate cannot be
resolved under `oC5`. -/
def aVest : VestEntry :=
  { vest_date := 20230110, number_of_shares := 50,
    vest_price_optional := some 20 }

/-- Oracles resolving everything for GAMMA (as in the golden fixture) but
nothing for other symbols' prices. -/
def oC5 : Oracles :=
  { price := fun sym d => if sym == "GAMMA" then gOracles.price sym d
      else none,
    rate := gOracles.rate,
    peak := gOracles.peak,
    pricesFor := gOracles.pricesFor,
    company := gOracles.company }

/-- C5 counterexample: with the failing AAA lot first and the fully
resolvable GAMMA lot second, `process_fa_calculations` returns `False`
immediately (`return False`, fa_calculator.py:1569): the run does
**not** continue with the remaining lots — no rows at all are produced,
although the GAMMA lot alone would have produced its row.  (The process
does exit non-zero, which is the part of the claim that holds.) -/
theorem c5_missing_input_counterexample :
    processFA oC5 2023 [("AAA", [aVest]), ("GAMMA", [gVest])] gSell =
      none ∧
    processFA oC5 2023 [("GAMMA", [gVest])] gSell = some [gRow] ∧
    exitCode (processFA oC5 2023 [("AAA", [aVest]), ("GAMMA", [gVest])]
      gSell) = 1 := by
  have hfail : processFA oC5 2023 [("AAA", [aVest]), ("GAMMA", [gVest])]
      gSell = none := rfl
  have hGAMMA : processLot oC5 2023 gSell "GAMMA" gVest = .ok gRow := by
    have hlook : lookupSales gSell "GAMMA" = [saleGamma] := rfl
    have hprice : ∀ d, oC5.price "GAMMA" d = gOracles.price "GAMMA" d :=
      fun d => rfl
    norm_num [processLot, oC5, gOracles, gSell, gVest, gRow, gCompany,
      saleGamma, lookupSales, validateSalesAndGetRemainingShares,
      totalSoldFor, getPurchasePriceWithVestOverride,
      calculatePeakValueWithSales, lotSalesInYear, sharesHeldOn, peakScan,
      dateYear, jan1, dec31, getSaleProceedsForLotInYear, pyRound]
  refine ⟨hfail, ?_, by simp [exitCode, hfail]⟩
  simp only [processFA, processAll, processVestList, hGAMMA,
    List.nil_append]

/-- C5 (amended): when any of the six required inputs of a lot
(acquisition price, Jan-1 price, Dec-31 price, peak price, vest-date and
Dec-31 exchange rates) resolves to absent, the failure carries one
diagnostic per missing field and the **whole run aborts at that lot** —
no further lots are processed, no rows are written, and the process
exits non-zero. -/
theorem c5_missing_input_aborts_run (o : Oracles) (year : Nat)
    (sell_data : SellData) (symbol : String) (vest : VestEntry)
    (vests : List VestEntry) (rest : VestData) (msgs : List String) :
    processLot o year sell_data symbol vest = .missingData msgs →
    (msgs = missingFieldMsgs (getPurchasePriceWithVestOverride o symbol vest)
        (o.price symbol (jan1 year)) (o.price symbol (dec31 year))
        (o.peak symbol vest.vest_date) (o.rate vest.vest_date)
        (o.rate (dec31 year)) ∧
      processFA o year ((symbol, vest :: vests) :: rest) sell_data = none ∧
      exitCode (processFA o year ((symbol, vest :: vests) :: rest)
        sell_data) = 1) := by
  intro h
  have habort : processFA o year ((symbol, vest :: vests) :: rest)
      sell_data = none := by
    have hvl : processVestList o year sell_data symbol (vest :: vests) [] =
        none := by
      simp only [processVestList, h]
    simp only [processFA, processAll, hvl]
  refine ⟨?_, habort, by simp [exitCode, habort]⟩
  simp only [processLot] at h
  split at h
  · exact absurd h (by simp)
  · rename_i remaining hv
    split at h
    · exact absurd h (by simp)
    · rename_i hz
      split at h
      · split at h
        · exact absurd h (by simp)
        · exact absurd h (by simp)
      · rename_i vp j1 d31 pk vr d31r hne
        exact (LotOutcome.missingData.inj h).symm

/-- C5 witness: the AAA lot under `oC5` is missing the Jan-1 price, the
Dec-31 price and the vest-date exchange rate, and with it first the run
aborts with no rows and exit code 1. -/
theorem c5_missing_input_aborts_run_witness :
    (["jan 1 price", "dec 31 price", "vest date sbi rate"] =
      missingFieldMsgs (getPurchasePriceWithVestOverride oC5 "AAA" aVest)
        (oC5.price "AAA" (jan1 2023)) (oC5.price "AAA" (dec31 2023))
        (oC5.peak "AAA" aVest.vest_date) (oC5.rate aVest.vest_date)
        (oC5.rate (dec31 2023)) ∧
      processFA oC5 2023 [("AAA", aVest :: []), ("GAMMA", [gVest])]
        gSell = none ∧
      exitCode (processFA oC5 2023 [("AAA", aVest :: []), ("GAMMA", [gVest])]
        gSell) = 1) := by
  apply c5_missing_input_aborts_run oC5 2023 gSell "AAA" aVest []
    [("GAMMA", [gVest])] ["jan 1 price", "dec 31 price", "vest date sbi rate"]
  rfl

/-!
## C4 — price resolution (cache hit, weekend fallback, dual caching)
-/

lemma lookupPrice_cachePriceMem_self (c : PriceCache) (symbol : String)
    (d : Day) (p : Rat) :
    lookupPrice (cachePriceMem c symbol d p) symbol d = some p := by
  simp [lookupPrice, cachePriceMem, List.find?_cons]

lemma lookupPrice_cachePriceMem_other (c : PriceCache) (symbol : String)
    (d d2 : Day) (p : Rat) (h : d2 ≠ d) :
    lookupPrice (cachePriceMem c symbol d p) symbol d2 =
      lookupPrice c symbol d2 := by
  simp only [lookupPrice, cachePriceMem, List.find?_cons]
  have : (symbol == symbol && d == d2) = false := by
    simp [Ne.symm h]
  rw [this]

lemma fetchWalk_hit (provider : String → Day → Option Rat) (symbol : String)
    (date : Day) :
    ∀ (k a j : Nat) (p : Rat), a ≤ j → j < a + k →
      weekday (date - (j : Int)) < 5 →
      provider symbol (date - (j : Int)) = some p →
      (∀ b : Nat, a ≤ b → b < j → weekday (date - (b : Int)) < 5 →
        provider symbol (date - (b : Int)) = none) →
      (fetchWalk provider symbol date (List.range' a k)).2 =
        some (date - (j : Int), round2 p) := by
  intro k
  induction k with
  | zero =>
      intro a j p h1 h2 _ _ _
      omega
  | succ k ih =>
      intro a j p h1 h2 hw hp hnone
      rw [List.range']
      by_cases hja : j = a
      · subst hja
        simp only [fetchWalk]
        rw [if_neg (by omega), hp]
      · have hja2 : a < j := by omega
        simp only [fetchWalk]
        by_cases hwa : 5 ≤ weekday (date - (a : Int))
        · rw [if_pos hwa]
          exact ih (a + 1) j p (by omega) (by omega) hw hp
            (fun b hb1 hb2 hb3 => hnone b (by omega) hb2 hb3)
        · rw [if_neg hwa]
          rw [hnone a (le_refl a) hja2 (by omega)]
          exact ih (a + 1) j p (by omega) (by omega) hw hp
            (fun b hb1 hb2 hb3 => hnone b (by omega) hb2 hb3)

lemma fetchWalk_miss (provider : String → Day → Option Rat) (symbol : String)
    (date : Day) :
    ∀ (k a : Nat),
      (∀ b : Nat, a ≤ b → b < a + k → weekday (date - (b : Int)) < 5 →
        provider symbol (date - (b : Int)) = none) →
      (fetchWalk provider symbol date (List.range' a k)).2 = none := by
  intro k
  induction k with
  | zero =>
      intro a _
      rfl
  | succ k ih =>
      intro a hnone
      rw [List.range']
      simp only [fetchWalk]
      by_cases hwa : 5 ≤ weekday (date - (a : Int))
      · rw [if_pos hwa]
        exact ih (a + 1) (fun b hb1 hb2 hb3 => hnone b (by omega) (by omega) hb3)
      · rw [if_neg hwa]
        rw [hnone a (le_refl a) (by omega) (by omega)]
        exact ih (a + 1) (fun b hb1 hb2 hb3 => hnone b (by omega) (by omega) hb3)

/-- C4: price resolution.  (i) An exact cached `(symbol, date)` entry is
returned with no provider query.  (ii) On a cache miss with fetching
allowed, if `date - j` (`j < 7`) is the most recent day in the 7-day
window that is a weekday (Sat/Sun skipped) and has a provider price,
the walk returns that price (rounded to 2 decimals), caches it under
both the resolved day and the originally requested date, and a repeated
request is then served from cache with no provider query.  (iii) If no
weekday in the 7-day window has a provider price, resolution fails with
`none` and the cache is unchanged; no approximate price is substituted. -/
theorem c4_price_resolution_fallback (provider : String → Day → Option Rat)
    (c : PriceCache) (symbol : String) (date : Day) :
    (∀ p, lookupPrice c symbol date = some p →
      getStockPrice provider false c symbol date = (some p, c, [])) ∧
    (lookupPrice c symbol date = none →
      ∀ j : Nat, j < 7 → ∀ p,
        weekday (date - (j : Int)) < 5 →
        provider symbol (date - (j : Int)) = some p →
        (∀ b : Nat, b < j → weekday (date - (b : Int)) < 5 →
          provider symbol (date - (b : Int)) = none) →
        ∃ c' qs, getStockPrice provider false c symbol date =
            (some (round2 p), c', qs) ∧
          lookupPrice c' symbol date = some (round2 p) ∧
          lookupPrice c' symbol (date - (j : Int)) = some (round2 p) ∧
          getStockPrice provider false c' symbol date =
            (some (round2 p), c', [])) ∧
    (lookupPrice c symbol date = none →
      (∀ b : Nat, b < 7 → weekday (date - (b : Int)) < 5 →
        provider symbol (date - (b : Int)) = none) →
      (getStockPrice provider false c symbol date).1 = none ∧
      (getStockPrice provider false c symbol date).2.1 = c) := by
  refine ⟨?_, ?_, ?_⟩
  · intro p hp
    unfold getStockPrice
    rw [hp]
  · intro hmiss j hj p hw hp hnone
    have hwalk : (fetchWalk provider symbol date (List.range 7)).2 =
        some (date - (j : Int), round2 p) := by
      rw [List.range_eq_range']
      exact fetchWalk_hit provider symbol date 7 0 j p (Nat.zero_le j)
        (by omega) hw hp (fun b _ hb2 hb3 => hnone b hb2 hb3)
    rcases hfw : fetchWalk provider symbol date (List.range 7) with ⟨qs, res⟩
    rw [hfw] at hwalk
    subst hwalk
    by_cases hfd : (date - (j : Int)) ≠ date
    · refine ⟨cachePriceMem (cachePriceMem c symbol (date - (j : Int))
        (round2 p)) symbol date (round2 p), qs, ?_, ?_, ?_, ?_⟩
      · unfold getStockPrice
        rw [hmiss, hfw]
        simp only [if_neg (Bool.false_ne_true ∘ (fun h => h)), hfd]
        rw [if_pos hfd]
      · exact lookupPrice_cachePriceMem_self _ symbol date (round2 p)
      · rw [lookupPrice_cachePriceMem_other _ symbol date (date - (j : Int))
          (round2 p) hfd]
        exact lookupPrice_cachePriceMem_self _ symbol (date - (j : Int))
          (round2 p)
      · unfold getStockPrice
        rw [lookupPrice_cachePriceMem_self _ symbol date (round2 p)]
    · push_neg at hfd
      rw [hfd]
      refine ⟨cachePriceMem c symbol date (round2 p), qs, ?_, ?_, ?_, ?_⟩
      · unfold getStockPrice
        rw [hmiss, hfw, hfd]
        show (some (round2 p),
          if date ≠ date then
            cachePriceMem (cachePriceMem c symbol date (round2 p)) symbol
              date (round2 p)
          else cachePriceMem c symbol date (round2 p), qs) =
          (some (round2 p), cachePriceMem c symbol date (round2 p), qs)
        rw [if_neg (by simp)]
      · exact lookupPrice_cachePriceMem_self _ symbol date (round2 p)
      · exact lookupPrice_cachePriceMem_self _ symbol date (round2 p)
      · unfold getStockPrice
        rw [lookupPrice_cachePriceMem_self _ symbol date (round2 p)]
  · intro hmiss hnone
    have hwalk : (fetchWalk provider symbol date (List.range 7)).2 = none := by
      rw [List.range_eq_range']
      exact fetchWalk_miss provider symbol date 7 0
        (fun b _ hb2 hb3 => hnone b (by omega) hb3)
    rcases hfw : fetchWalk provider symbol date (List.range 7) with ⟨qs, res⟩
    rw [hfw] at hwalk
    subst hwalk
    unfold getStockPrice
    rw [hmiss, hfw]
    exact ⟨rfl, rfl⟩

/-- C4 witness: requesting day 5 (a Saturday under the Monday-0 epoch)
with the provider only knowing day 4 (Friday) resolves to the Friday
price, caches it under both days, and a repeated request does not query
the provider. -/
theorem c4_price_resolution_fallback_witness :
    ∃ c' qs,
      getStockPrice (fun _ d => if d = 4 then some 100 else none) false
        ⟨[]⟩ "GOOG" 5 = (some (round2 100), c', qs) ∧
      lookupPrice c' "GOOG" 5 = some (round2 100) ∧
      lookupPrice c' "GOOG" (5 - ((1 : Nat) : Int)) = some (round2 100) ∧
      getStockPrice (fun _ d => if d = 4 then some 100 else none) false
        c' "GOOG" 5 = (some (round2 100), c', []) := by
  apply (c4_price_resolution_fallback
    (fun _ d => if d = 4 then some 100 else none) ⟨[]⟩ "GOOG" 5).2.1
  · rfl
  · omega
  · decide
  · rfl
  · intro b hb hw
    exfalso
    have hb0 : b = 0 := by omega
    subst hb0
    simp only [Nat.cast_zero, sub_zero, weekday] at hw
    omega

/-!
## C7 — checkpoint-on-write
-/

/-- C7 counterexample: `_cache_stock_price` performs **no** save.
Starting from an in-memory cache with nothing persisted yet, caching a
newly fetched stock price updates memory and the pending batch but the
persisted file still does not exist, while an exchange-rate put from the
same state does checkpoint immediately. -/
theorem c7_checkpoint_on_write_counterexample :
    (cacheStockPrice ⟨⟨[], [], []⟩, [], none, true⟩ "GOOG" 20230106
      50).persisted = none ∧
    (cacheStockPrice ⟨⟨[], [], []⟩, [], none, true⟩ "GOOG" 20230106
        50).publicData.stocks =
      [("GOOG", { prices := [(20230106, 50)], company_info := [],
                  high_low := [] })] ∧
    (cacheExchangeRate ⟨⟨[], [], []⟩, [], none, true⟩ 20230106
        83).persisted =
      some (savePublicDataPure ⟨[], [(20230106, 83)], []⟩) := by
  refine ⟨rfl, rfl, rfl⟩

/-- C7 (amended): the exchange-rate, company-info and high/low cache
puts each trigger an immediate save of the whole (sorted) cache, so
after any one of them the persisted file contains the new fact; the
stock-price put (`_cache_stock_price`) only updates memory and the
pending batch and leaves the persisted file untouched.  A failing save
is swallowed: the put still completes with memory updated and the file
unchanged (`_save_cache_silently` catches the exception). -/
theorem c7_checkpoint_on_write (st : CacheState) (symbol : String)
    (d : Date) (rate price low high : Rat) (info : List (String × String)) :
    (st.diskOk = true →
      (cacheExchangeRate st d rate).persisted =
        some (savePublicDataPure
          { st.publicData with
            exchange_rates := dictSet st.publicData.exchange_rates d rate }) ∧
      (cacheCompanyInfo st symbol info).persisted =
        some (savePublicDataPure
          { st.publicData with
            stocks := updateAssoc st.publicData.stocks symbol emptyStock
              (fun sd => { sd with company_info := info }) }) ∧
      (cacheHighLowPrices st symbol d low high).persisted =
        some (savePublicDataPure
          { st.publicData with
            stocks := updateAssoc st.publicData.stocks symbol emptyStock
              (fun sd =>
                { sd with
                  high_low := dictSet sd.high_low d (round2 low, round2 high) }) })) ∧
    (cacheStockPrice st symbol d price).persisted = st.persisted ∧
    (cacheStockPrice st symbol d price).publicData.stocks =
      updateAssoc st.publicData.stocks symbol emptyStock
        (fun sd => { sd with prices := dictSet sd.prices d price }) ∧
    (st.diskOk = false →
      savePublicDataOp st = .error () ∧
      saveCacheSilently st = st ∧
      (cacheExchangeRate st d rate).persisted = st.persisted ∧
      (cacheExchangeRate st d rate).publicData =
        { st.publicData with
          exchange_rates := dictSet st.publicData.exchange_rates d rate }) := by
  refine ⟨?_, rfl, rfl, ?_⟩
  · intro hok
    refine ⟨?_, ?_, ?_⟩ <;>
      simp [cacheExchangeRate, cacheCompanyInfo, cacheHighLowPrices,
        saveCacheSilently, savePublicDataOp, hok]
  · intro hbad
    refine ⟨?_, ?_, ?_, ?_⟩ <;>
      simp [cacheExchangeRate, saveCacheSilently, savePublicDataOp, hbad]

/-- C7 witness: the amended theorem at a concrete state with a healthy
disk and at one with a failing disk. -/
theorem c7_checkpoint_on_write_witness :
    ((true : Bool) = true →
      (cacheExchangeRate ⟨⟨[], [], []⟩, [], none, true⟩ 20230106
          83).persisted =
        some (savePublicDataPure
          { (⟨[], [], []⟩ : PublicData) with
            exchange_rates := dictSet [] 20230106 83 }) ∧
      (cacheCompanyInfo ⟨⟨[], [], []⟩, [], none, true⟩ "GOOG"
          [("name", "Alphabet Inc.")]).persisted =
        some (savePublicDataPure
          { (⟨[], [], []⟩ : PublicData) with
            stocks := updateAssoc [] "GOOG" emptyStock
              (fun sd => { sd with
                company_info := [("name", "Alphabet Inc.")] }) }) ∧
      (cacheHighLowPrices ⟨⟨[], [], []⟩, [], none, true⟩ "GOOG" 20230106
          49 52).persisted =
        some (savePublicDataPure
          { (⟨[], [], []⟩ : PublicData) with
            stocks := updateAssoc [] "GOOG" emptyStock
              (fun sd =>
                { sd with
                  high_low := dictSet sd.high_low 20230106 (round2 49, round2 52) }) })) ∧
    (cacheStockPrice ⟨⟨[], [], []⟩, [], none, true⟩ "GOOG" 20230106
        50).persisted = none ∧
    (cacheStockPrice ⟨⟨[], [], []⟩, [], none, true⟩ "GOOG" 20230106
        50).publicData.stocks =
      updateAssoc [] "GOOG" emptyStock
        (fun sd => { sd with prices := dictSet sd.prices 20230106 50 }) ∧
    ((true : Bool) = false →
      savePublicDataOp ⟨⟨[], [], []⟩, [], none, true⟩ = .error () ∧
      saveCacheSilently ⟨⟨[], [], []⟩, [], none, true⟩ =
        ⟨⟨[], [], []⟩, [], none, true⟩ ∧
      (cacheExchangeRate ⟨⟨[], [], []⟩, [], none, true⟩ 20230106
          83).persisted = none ∧
      (cacheExchangeRate ⟨⟨[], [], []⟩, [], none, true⟩ 20230106
          83).publicData =
        { (⟨[], [], []⟩ : PublicData) with
          exchange_rates := dictSet [] 20230106 83 }) :=
  c7_checkpoint_on_write ⟨⟨[], [], []⟩, [], none, true⟩ "GOOG" 20230106
    83 50 49 52 [("name", "Alphabet Inc.")]

/-!
## C8 — canonical, idempotent serialization
-/

/-- C8 counterexample: two caches equal as key→value maps but with
`country_mapping` inserted in different orders serialize to different
bytes — `save_public_data` sorts stocks and the date-keyed maps but
passes `country_mapping` (and `company_info`) through in insertion
order, so the saved output is **not** independent of original insertion
order. -/
theorem c8_canonical_save_counterexample :
    (([("United States", 2), ("Canada", 4)] : List (String × Nat)).Perm
      [("Canada", 4), ("United States", 2)]) ∧
    savePublicDataPure ⟨[], [], [("United States", 2), ("Canada", 4)]⟩ ≠
      savePublicDataPure ⟨[], [], [("Canada", 4), ("United States", 2)]⟩ := by
  constructor
  · exact List.Perm.swap _ _ _
  · decide

lemma sortStockEntry_idem (sd : StockData) :
    sortStockEntry (sortStockEntry sd) = sortStockEntry sd := by
  unfold sortStockEntry
  simp [sortPairs_idem]

/-- C8 (amended): `save_public_data` is idempotent — a second save with
no intervening change is byte-identical — and its output is independent
of the insertion order of the **sorted** components (the stocks map and
every date-keyed map, given the distinct keys a dict guarantees), while
it preserves the insertion order of `country_mapping` and
`company_info`. -/
theorem c8_canonical_save (d d2 : PublicData) (sd sd2 : StockData) :
    (savePublicDataPure (savePublicDataPure d) = savePublicDataPure d) ∧
    (d.stocks.Perm d2.stocks →
      d.stocks.Pairwise (fun a b => a.1 ≠ b.1) →
      d.exchange_rates.Perm d2.exchange_rates →
      d.exchange_rates.Pairwise (fun a b => a.1 ≠ b.1) →
      d.country_mapping = d2.country_mapping →
      savePublicDataPure d = savePublicDataPure d2) ∧
    (sd.prices.Perm sd2.prices →
      sd.prices.Pairwise (fun a b => a.1 ≠ b.1) →
      sd.high_low.Perm sd2.high_low →
      sd.high_low.Pairwise (fun a b => a.1 ≠ b.1) →
      sd.company_info = sd2.company_info →
      sortStockEntry sd = sortStockEntry sd2) := by
  refine ⟨?_, ?_, ?_⟩
  · unfold savePublicDataPure
    simp only [sortPairs_idem]
    congr 1
    have hsorted : ((sortPairs strLt d.stocks).map
        (fun e => (e.1, sortStockEntry e.2))).Sorted
          (fun a b => strLt b.1 a.1 = false) := by
      have := sortPairs_sorted strLt d.stocks
      exact List.Pairwise.map _ (fun a b hab => hab) this
    rw [sortPairs_of_sorted strLt hsorted, List.map_map]
    exact List.map_congr_left (fun e _ => by
      simp [Function.comp, sortStockEntry_idem])
  · intro hps hnds hpr hnkr hcm
    unfold savePublicDataPure
    rw [sortPairs_eq_of_perm strLt hps hnds,
      sortPairs_eq_of_perm natLt hpr hnkr, hcm]
  · intro hpp hnp hph hnh hci
    unfold sortStockEntry
    rw [sortPairs_eq_of_perm natLt hpp hnp,
      sortPairs_eq_of_perm natLt hph hnh, hci]

/-- C8 witness: a two-symbol cache inserted out of order canonicalizes
to the same bytes as its sorted permutation, and re-saving is
byte-identical. -/
theorem c8_canonical_save_witness :
    (savePublicDataPure (savePublicDataPure
        ⟨[("MSFT", ⟨[], [], []⟩), ("AAPL", ⟨[], [], []⟩)],
         [(20230102, 83), (20230101, 82)], [("United States", 2)]⟩) =
      savePublicDataPure
        ⟨[("MSFT", ⟨[], [], []⟩), ("AAPL", ⟨[], [], []⟩)],
         [(20230102, 83), (20230101, 82)], [("United States", 2)]⟩) ∧
    savePublicDataPure
        ⟨[("MSFT", ⟨[], [], []⟩), ("AAPL", ⟨[], [], []⟩)],
         [(20230102, 83), (20230101, 82)], [("United States", 2)]⟩ =
      savePublicDataPure
        ⟨[("AAPL", ⟨[], [], []⟩), ("MSFT", ⟨[], [], []⟩)],
         [(20230101, 82), (20230102, 83)], [("United States", 2)]⟩ := by
  have h := c8_canonical_save
    ⟨[("MSFT", ⟨[], [], []⟩), ("AAPL", ⟨[], [], []⟩)],
     [(20230102, 83), (20230101, 82)], [("United States", 2)]⟩
    ⟨[("AAPL", ⟨[], [], []⟩), ("MSFT", ⟨[], [], []⟩)],
     [(20230101, 82), (20230102, 83)], [("United States", 2)]⟩
    ⟨[], [], []⟩ ⟨[], [], []⟩
  refine ⟨h.1, h.2.1 ?_ ?_ ?_ ?_ rfl⟩
  · exact List.Perm.swap _ _ _
  · decide
  · exact List.Perm.swap _ _ _
  · decide

end FACalc
